import Mathlib

/-!
# Verification of the HATEOAS bank API and its discovery layer

Shallow embedding of `src/hateoas-bank-api.go` (a Go HTTP server exposing
bank accounts with HATEOAS `_links`) together with a model of the
discovery/diffing engine described in the specification.

Go `float64` balances are embedded as exact rationals (`Rat`); the claims
under verification concern control flow and exact arithmetic on the
amounts, not floating-point rounding.  Go maps are embedded as association
lists with string keys.
-/

namespace HateoasBank

/-- Embeds the Go struct `Link` (href, method, rel). -/
structure Link where
  href : String
  method : String
  rel : String
deriving DecidableEq, Repr

/-- Embeds the Go struct `Account`.  The `_links` map is an association
list from relation name to `Link`; the stored accounts start with an
empty (nil) links map. -/
structure Account where
  accountID : String
  accountHolder : String
  balance : Rat
  currency : String
  links : List (String × Link)
deriving DecidableEq, Repr

/-- The global `accounts` store: Go `map[string]*Account`. -/
abbrev AccountsMap := List (String × Account)

/-- Lookup in a Go map embedded as an association list. -/
def mapLookup {α : Type} (m : List (String × α)) (k : String) : Option α :=
  match m with
  | [] => none
  | (k', v) :: rest => if k' = k then some v else mapLookup rest k

/-- Update of an existing key in a Go map embedded as an association
list (the Go code mutates the stored `*Account` in place, which never
adds or removes a key). -/
def mapSet {α : Type} (m : List (String × α)) (k : String) (v : α) :
    List (String × α) :=
  m.map (fun p => if p.1 = k then (p.1, v) else p)

/-- The initial John Doe account of the Go source (lines 29-34). -/
def acc123 : Account :=
  { accountID := "acc-123", accountHolder := "John Doe",
    balance := (1250.75 : Rat), currency := "USD", links := [] }

/-- The initial Jane Smith account of the Go source (lines 35-40). -/
def acc456 : Account :=
  { accountID := "acc-456", accountHolder := "Jane Smith",
    balance := (-150.25 : Rat), currency := "USD", links := [] }

/-- The initial `accounts` map of the Go source (lines 28-41). -/
def initialAccounts : AccountsMap :=
  [("acc-123", acc123), ("acc-456", acc456)]

/-- Embeds `addHATEOASLinks`: builds the `_links` map (self and deposit
always; withdraw only when the balance is positive) and stores it on the
account. -/
def addHATEOASLinks (account : Account) (baseURL : String) : Account :=
  let links : List (String × Link) :=
    [ ("self",
       { href := baseURL ++ "/accounts/" ++ account.accountID,
         method := "GET", rel := "self" }),
      ("deposit",
       { href := baseURL ++ "/accounts/" ++ account.accountID ++ "/deposit",
         method := "POST", rel := "deposit" }) ]
  let links :=
    if account.balance > 0 then
      links ++
        [ ("withdraw",
           { href := baseURL ++ "/accounts/" ++ account.accountID ++ "/withdraw",
             method := "POST", rel := "withdraw" }) ]
    else links
  { account with links := links }

/-- An HTTP response as produced by the handlers: status code, the JSON
account representation when one is written, and the error-message body
when one is written. -/
structure Response where
  status : Nat
  body : Option Account
  err : Option String
deriving DecidableEq, Repr

/-- Embeds the `getAccount` handler.  `accountID` is the id extracted
from the URL path (`strings.TrimPrefix(path, "/accounts/")`); `host` is
`r.Host`.  Returns the response and the (unchanged) accounts store. -/
def getAccount (accounts : AccountsMap) (method accountID host : String) :
    Response × AccountsMap :=
  if method ≠ "GET" then
    ({ status := 405, body := none, err := none }, accounts)
  else
    match mapLookup accounts accountID with
    | none => ({ status := 404, body := none, err := none }, accounts)
    | some account =>
        let accountCopy := addHATEOASLinks account ("http://" ++ host)
        ({ status := 200, body := some accountCopy, err := none }, accounts)

/-- Embeds the `deposit` handler.  `accountID` is the id extracted from
the URL path (`strings.Split(path, "/")[2]`); `body` is the result of
decoding the JSON request body into `Transaction` (`none` when decoding
fails, `some amount` otherwise). -/
def deposit (accounts : AccountsMap) (method accountID : String)
    (body : Option Rat) (host : String) : Response × AccountsMap :=
  if method ≠ "POST" then
    ({ status := 405, body := none, err := none }, accounts)
  else
    match mapLookup accounts accountID with
    | none => ({ status := 404, body := none, err := none }, accounts)
    | some account =>
        match body with
        | none => ({ status := 400, body := none, err := none }, accounts)
        | some amount =>
            if amount ≤ 0 then
              ({ status := 400, body := none,
                 err := some "Amount must be positive" }, accounts)
            else
              let updated := { account with balance := account.balance + amount }
              let accounts' := mapSet accounts accountID updated
              let accountCopy := addHATEOASLinks updated ("http://" ++ host)
              ({ status := 200, body := some accountCopy, err := none }, accounts')

/-- Embeds the `withdraw` handler: same shape as `deposit`, but with the
`balance <= 0` forbidden check before the body is decoded, and the
balance decremented. -/
def withdraw (accounts : AccountsMap) (method accountID : String)
    (body : Option Rat) (host : String) : Response × AccountsMap :=
  if method ≠ "POST" then
    ({ status := 405, body := none, err := none }, accounts)
  else
    match mapLookup accounts accountID with
    | none => ({ status := 404, body := none, err := none }, accounts)
    | some account =>
        if account.balance ≤ 0 then
          ({ status := 403, body := none,
             err := some "Withdrawal not allowed with negative balance" }, accounts)
        else
          match body with
          | none => ({ status := 400, body := none, err := none }, accounts)
          | some amount =>
              if amount ≤ 0 then
                ({ status := 400, body := none,
                   err := some "Amount must be positive" }, accounts)
              else
                let updated := { account with balance := account.balance - amount }
                let accounts' := mapSet accounts accountID updated
                let accountCopy := addHATEOASLinks updated ("http://" ++ host)
                ({ status := 200, body := some accountCopy, err := none }, accounts')

/-- The `_links` invariant every emitted representation satisfies:
`self` (GET) and `deposit` (POST) always present, `withdraw` (POST)
present exactly when the representation's balance is positive. -/
def linksInvariant (rep : Account) : Prop :=
  (∃ l, mapLookup rep.links "self" = some l ∧ l.method = "GET") ∧
  (∃ l, mapLookup rep.links "deposit" = some l ∧ l.method = "POST") ∧
  ((∃ l, mapLookup rep.links "withdraw" = some l ∧ l.method = "POST") ↔
    rep.balance > 0)

theorem addHATEOASLinks_balance (account : Account) (baseURL : String) :
    (addHATEOASLinks account baseURL).balance = account.balance := by
  unfold addHATEOASLinks
  split <;> rfl

theorem addHATEOASLinks_invariant (account : Account) (baseURL : String) :
    linksInvariant (addHATEOASLinks account baseURL) := by
  unfold linksInvariant addHATEOASLinks
  by_cases h : account.balance > 0
  · simp only [if_pos h, mapLookup]
    simp [h]
  · simp only [if_neg h, mapLookup]
    simp [h]

theorem mapSet_cons {α : Type} (k₀ : String) (x : α)
    (rest : List (String × α)) (k : String) (v : α) :
    mapSet ((k₀, x) :: rest) k v =
      (if k₀ = k then (k₀, v) else (k₀, x)) :: mapSet rest k v := by
  by_cases h : k₀ = k <;> simp [mapSet, h]

theorem mapLookup_mapSet_eq {α : Type} (m : List (String × α)) (k : String)
    (v w : α) (h : mapLookup m k = some w) :
    mapLookup (mapSet m k v) k = some v := by
  induction m with
  | nil => simp [mapLookup] at h
  | cons p rest ih =>
      obtain ⟨k₀, x⟩ := p
      by_cases h₀ : k₀ = k
      · rw [mapSet_cons, if_pos h₀]
        subst h₀
        simp [mapLookup]
      · rw [mapSet_cons, if_neg h₀]
        simp only [mapLookup, if_neg h₀] at h ⊢
        exact ih h

theorem mapLookup_mapSet_ne {α : Type} (m : List (String × α)) (k k' : String)
    (v : α) (h : k' ≠ k) :
    mapLookup (mapSet m k v) k' = mapLookup m k' := by
  induction m with
  | nil => simp [mapLookup, mapSet]
  | cons p rest ih =>
      obtain ⟨k₀, x⟩ := p
      by_cases h₀ : k₀ = k
      · rw [mapSet_cons, if_pos h₀]
        subst h₀
        have hne : ¬ (k₀ = k') := fun hh => h hh.symm
        simp only [mapLookup, if_neg hne]
        exact ih
      · rw [mapSet_cons, if_neg h₀]
        by_cases h' : k₀ = k'
        · subst h'
          simp [mapLookup]
        · simp only [mapLookup, if_neg h']
          exact ih

theorem mapSet_keys {α : Type} (m : List (String × α)) (k : String) (v : α) :
    (mapSet m k v).map Prod.fst = m.map Prod.fst := by
  induction m with
  | nil => rfl
  | cons p rest ih =>
      obtain ⟨k₀, x⟩ := p
      by_cases h₀ : k₀ = k
      · rw [mapSet_cons, if_pos h₀]
        simp [ih]
      · rw [mapSet_cons, if_neg h₀]
        simp [ih]

/-- Claim C1: every representation a handler emits carries `self` (GET) and
`deposit` (POST), and carries `withdraw` (POST) exactly when its balance is
strictly positive. -/
theorem handlers_linksInvariant
    (accounts : AccountsMap) (method accountID host : String)
    (body : Option Rat) (rep : Account)
    (h : (getAccount accounts method accountID host).1.body = some rep ∨
         (deposit accounts method accountID body host).1.body = some rep ∨
         (withdraw accounts method accountID body host).1.body = some rep) :
    linksInvariant rep := by
  rcases h with h | h | h
  · unfold getAccount at h
    split at h
    · simp at h
    · split at h
      · simp at h
      · simp only [Option.some.injEq] at h
        subst h
        exact addHATEOASLinks_invariant _ _
  · unfold deposit at h
    split at h
    · simp at h
    · split at h
      · simp at h
      · split at h
        · simp at h
        · split at h
          · simp at h
          · simp only [Option.some.injEq] at h
            subst h
            exact addHATEOASLinks_invariant _ _
  · unfold withdraw at h
    split at h
    · simp at h
    · split at h
      · simp at h
      · split at h
        · simp at h
        · split at h
          · simp at h
          · split at h
            · simp at h
            · simp only [Option.some.injEq] at h
              subst h
              exact addHATEOASLinks_invariant _ _

/-- A sample account used to instantiate the handler theorems. -/
def accA : Account :=
  { accountID := "acc-a", accountHolder := "A", balance := (5 : Rat),
    currency := "USD", links := [] }

/-- A sample account with non-positive balance. -/
def accB : Account :=
  { accountID := "acc-b", accountHolder := "B", balance := (-2 : Rat),
    currency := "USD", links := [] }

/-- Sample store holding `accA` and `accB`. -/
def sampleAccounts : AccountsMap := [("acc-a", accA), ("acc-b", accB)]

theorem handlers_linksInvariant_witness :
    linksInvariant (addHATEOASLinks accA ("http://" ++ "h")) :=
  handlers_linksInvariant sampleAccounts "GET" "acc-a" "h" none
    (addHATEOASLinks accA ("http://" ++ "h")) (Or.inl rfl)

/-- Claim C2: for an existing account, the withdraw handler answers 403
exactly when the current balance is non-positive, and a 403 response
leaves the accounts store unchanged. -/
theorem withdraw_403_iff (accounts : AccountsMap) (accountID host : String)
    (body : Option Rat) (account : Account)
    (hacct : mapLookup accounts accountID = some account) :
    (((withdraw accounts "POST" accountID body host).1.status = 403) ↔
      account.balance ≤ 0) ∧
    ((withdraw accounts "POST" accountID body host).1.status = 403 →
      (withdraw accounts "POST" accountID body host).2 = accounts) := by
  unfold withdraw
  rw [if_neg (by simp), hacct]
  simp only []
  by_cases hb : account.balance ≤ 0
  · rw [if_pos hb]
    exact ⟨⟨fun _ => hb, fun _ => rfl⟩, fun _ => rfl⟩
  · rw [if_neg hb]
    match body with
    | none =>
        exact ⟨⟨fun h => absurd h (by simp), fun h => absurd h hb⟩,
               fun h => absurd h (by simp)⟩
    | some amount =>
        simp only []
        by_cases ha : amount ≤ 0
        · rw [if_pos ha]
          exact ⟨⟨fun h => absurd h (by simp), fun h => absurd h hb⟩,
                 fun h => absurd h (by simp)⟩
        · rw [if_neg ha]
          exact ⟨⟨fun h => absurd h (by simp), fun h => absurd h hb⟩,
                 fun h => absurd h (by simp)⟩

theorem withdraw_403_iff_witness :
    (((withdraw sampleAccounts "POST" "acc-b" (some (3 : Rat)) "h").1.status = 403) ↔
      accB.balance ≤ 0) ∧
    ((withdraw sampleAccounts "POST" "acc-b" (some (3 : Rat)) "h").1.status = 403 →
      (withdraw sampleAccounts "POST" "acc-b" (some (3 : Rat)) "h").2 = sampleAccounts) :=
  withdraw_403_iff sampleAccounts "acc-b" "h" (some 3) accB rfl

/-- Claim C3: for an existing account and a decoded amount > 0, the deposit
handler stores old balance + amount and returns status 200 with the updated
representation (same id, holder, currency; new balance; fresh links). -/
theorem deposit_success (accounts : AccountsMap) (accountID host : String)
    (account : Account) (amount : Rat)
    (hacct : mapLookup accounts accountID = some account)
    (hamt : 0 < amount) :
    (deposit accounts "POST" accountID (some amount) host).1.status = 200 ∧
    mapLookup (deposit accounts "POST" accountID (some amount) host).2 accountID =
      some { account with balance := account.balance + amount } ∧
    (deposit accounts "POST" accountID (some amount) host).1.body =
      some (addHATEOASLinks { account with balance := account.balance + amount }
        ("http://" ++ host)) ∧
    ∀ rep, (deposit accounts "POST" accountID (some amount) host).1.body = some rep →
      rep.accountID = account.accountID ∧
      rep.accountHolder = account.accountHolder ∧
      rep.balance = account.balance + amount ∧
      rep.currency = account.currency := by
  unfold deposit
  rw [if_neg (by simp), hacct]
  simp only []
  rw [if_neg (not_le.mpr hamt)]
  refine ⟨rfl, ?_, rfl, ?_⟩
  · exact mapLookup_mapSet_eq accounts accountID _ account hacct
  · intro rep hrep
    simp only [Option.some.injEq] at hrep
    subst hrep
    refine ⟨?_, ?_, ?_, ?_⟩ <;> simp [addHATEOASLinks]

theorem deposit_success_witness :
    (deposit sampleAccounts "POST" "acc-a" (some (7 : Rat)) "h").1.status = 200 ∧
    mapLookup (deposit sampleAccounts "POST" "acc-a" (some (7 : Rat)) "h").2 "acc-a" =
      some { accA with balance := accA.balance + 7 } ∧
    (deposit sampleAccounts "POST" "acc-a" (some (7 : Rat)) "h").1.body =
      some (addHATEOASLinks { accA with balance := accA.balance + 7 }
        ("http://" ++ "h")) ∧
    ∀ rep, (deposit sampleAccounts "POST" "acc-a" (some (7 : Rat)) "h").1.body = some rep →
      rep.accountID = accA.accountID ∧
      rep.accountHolder = accA.accountHolder ∧
      rep.balance = accA.balance + 7 ∧
      rep.currency = accA.currency :=
  deposit_success sampleAccounts "acc-a" "h" accA 7 rfl (by decide)

/-- Claim C4: for an existing account with positive balance and a decoded
amount > 0, the withdraw handler stores old balance - amount and returns
status 200 with the updated representation. -/
theorem withdraw_success (accounts : AccountsMap) (accountID host : String)
    (account : Account) (amount : Rat)
    (hacct : mapLookup accounts accountID = some account)
    (hbal : 0 < account.balance) (hamt : 0 < amount) :
    (withdraw accounts "POST" accountID (some amount) host).1.status = 200 ∧
    mapLookup (withdraw accounts "POST" accountID (some amount) host).2 accountID =
      some { account with balance := account.balance - amount } ∧
    (withdraw accounts "POST" accountID (some amount) host).1.body =
      some (addHATEOASLinks { account with balance := account.balance - amount }
        ("http://" ++ host)) ∧
    ∀ rep, (withdraw accounts "POST" accountID (some amount) host).1.body = some rep →
      rep.accountID = account.accountID ∧
      rep.accountHolder = account.accountHolder ∧
      rep.balance = account.balance - amount ∧
      rep.currency = account.currency := by
  unfold withdraw
  rw [if_neg (by simp), hacct]
  simp only []
  rw [if_neg (not_le.mpr hbal)]
  rw [if_neg (not_le.mpr hamt)]
  refine ⟨rfl, ?_, rfl, ?_⟩
  · exact mapLookup_mapSet_eq accounts accountID _ account hacct
  · intro rep hrep
    simp only [Option.some.injEq] at hrep
    subst hrep
    refine ⟨?_, ?_, ?_, ?_⟩ <;> simp [addHATEOASLinks]

theorem withdraw_success_witness :
    (withdraw sampleAccounts "POST" "acc-a" (some (2 : Rat)) "h").1.status = 200 ∧
    mapLookup (withdraw sampleAccounts "POST" "acc-a" (some (2 : Rat)) "h").2 "acc-a" =
      some { accA with balance := accA.balance - 2 } ∧
    (withdraw sampleAccounts "POST" "acc-a" (some (2 : Rat)) "h").1.body =
      some (addHATEOASLinks { accA with balance := accA.balance - 2 }
        ("http://" ++ "h")) ∧
    ∀ rep, (withdraw sampleAccounts "POST" "acc-a" (some (2 : Rat)) "h").1.body = some rep →
      rep.accountID = accA.accountID ∧
      rep.accountHolder = accA.accountHolder ∧
      rep.balance = accA.balance - 2 ∧
      rep.currency = accA.currency :=
  withdraw_success sampleAccounts "acc-a" "h" accA 2 rfl (by decide) (by decide)

/-- Claim C5: for an existing account, a deposit request — and, when the
balance is positive, a withdraw request — whose body is malformed or whose
decoded amount is non-positive gets status 400 and leaves the accounts
store unchanged. -/
theorem validation_400_atomic (accounts : AccountsMap) (accountID host : String)
    (body : Option Rat) (account : Account)
    (hacct : mapLookup accounts accountID = some account)
    (hbad : body = none ∨ ∃ a, body = some a ∧ a ≤ 0) :
    ((deposit accounts "POST" accountID body host).1.status = 400 ∧
     (deposit accounts "POST" accountID body host).2 = accounts) ∧
    (0 < account.balance →
     (withdraw accounts "POST" accountID body host).1.status = 400 ∧
     (withdraw accounts "POST" accountID body host).2 = accounts) := by
  constructor
  · unfold deposit
    rw [if_neg (by simp), hacct]
    simp only []
    rcases hbad with hb | ⟨a, hb, ha⟩ <;> subst hb
    · exact ⟨rfl, rfl⟩
    · simp only []
      rw [if_pos ha]
      exact ⟨rfl, rfl⟩
  · intro hbal
    unfold withdraw
    rw [if_neg (by simp), hacct]
    simp only []
    rw [if_neg (not_le.mpr hbal)]
    rcases hbad with hb | ⟨a, hb, ha⟩ <;> subst hb
    · exact ⟨rfl, rfl⟩
    · simp only []
      rw [if_pos ha]
      exact ⟨rfl, rfl⟩

theorem validation_400_atomic_witness :
    ((deposit sampleAccounts "POST" "acc-a" none "h").1.status = 400 ∧
     (deposit sampleAccounts "POST" "acc-a" none "h").2 = sampleAccounts) ∧
    (0 < accA.balance →
     (withdraw sampleAccounts "POST" "acc-a" none "h").1.status = 400 ∧
     (withdraw sampleAccounts "POST" "acc-a" none "h").2 = sampleAccounts) :=
  validation_400_atomic sampleAccounts "acc-a" "h" none accA rfl (Or.inl rfl)

/-- Claim C6: GET of an existing id answers 200 with the full representation
(id, holder, balance, currency, links); GET of an absent id answers 404
with no representation body. -/
theorem getAccount_status (accounts : AccountsMap) (accountID host : String) :
    (∀ account, mapLookup accounts accountID = some account →
       (getAccount accounts "GET" accountID host).1.status = 200 ∧
       (getAccount accounts "GET" accountID host).1.body =
         some (addHATEOASLinks account ("http://" ++ host)) ∧
       ∀ rep, (getAccount accounts "GET" accountID host).1.body = some rep →
         rep.accountID = account.accountID ∧
         rep.accountHolder = account.accountHolder ∧
         rep.balance = account.balance ∧
         rep.currency = account.currency) ∧
    (mapLookup accounts accountID = none →
       (getAccount accounts "GET" accountID host).1.status = 404 ∧
       (getAccount accounts "GET" accountID host).1.body = none) := by
  constructor
  · intro account hacct
    unfold getAccount
    rw [if_neg (by simp), hacct]
    simp only []
    refine ⟨by trivial, by trivial, ?_⟩
    intro rep hrep
    simp only [Option.some.injEq] at hrep
    subst hrep
    refine ⟨?_, ?_, ?_, ?_⟩ <;> simp [addHATEOASLinks]
  · intro hnone
    unfold getAccount
    rw [if_neg (by simp), hnone]
    constructor <;> trivial

theorem getAccount_status_witness :
    (∀ account, mapLookup sampleAccounts "acc-a" = some account →
       (getAccount sampleAccounts "GET" "acc-a" "h").1.status = 200 ∧
       (getAccount sampleAccounts "GET" "acc-a" "h").1.body =
         some (addHATEOASLinks account ("http://" ++ "h")) ∧
       ∀ rep, (getAccount sampleAccounts "GET" "acc-a" "h").1.body = some rep →
         rep.accountID = account.accountID ∧
         rep.accountHolder = account.accountHolder ∧
         rep.balance = account.balance ∧
         rep.currency = account.currency) ∧
    (mapLookup sampleAccounts "acc-a" = none →
       (getAccount sampleAccounts "GET" "acc-a" "h").1.status = 404 ∧
       (getAccount sampleAccounts "GET" "acc-a" "h").1.body = none) :=
  getAccount_status sampleAccounts "acc-a" "h"

theorem addHATEOASLinks_no_withdraw (account : Account) (baseURL : String)
    (h : ¬ account.balance > 0) :
    mapLookup (addHATEOASLinks account baseURL).links "withdraw" = none := by
  unfold addHATEOASLinks
  simp only [if_neg h]
  simp [mapLookup]

/-- Claim C7: the withdraw handler never checks the amount against the
balance: overdrawing (amount > balance > 0) succeeds with status 200,
stores the negative balance, and the returned representation has no
withdraw link. -/
theorem withdraw_overdraft (accounts : AccountsMap) (accountID host : String)
    (account : Account) (amount : Rat)
    (hacct : mapLookup accounts accountID = some account)
    (hbal : 0 < account.balance) (hover : account.balance < amount) :
    (withdraw accounts "POST" accountID (some amount) host).1.status = 200 ∧
    mapLookup (withdraw accounts "POST" accountID (some amount) host).2 accountID =
      some { account with balance := account.balance - amount } ∧
    ∀ rep, (withdraw accounts "POST" accountID (some amount) host).1.body = some rep →
      rep.balance = account.balance - amount ∧
      rep.balance < 0 ∧
      mapLookup rep.links "withdraw" = none := by
  have hamt : 0 < amount := lt_trans hbal hover
  obtain ⟨hstatus, hstore, hbody, -⟩ :=
    withdraw_success accounts accountID host account amount hacct hbal hamt
  have hneg : account.balance - amount < 0 := sub_neg.mpr hover
  refine ⟨hstatus, hstore, ?_⟩
  intro rep hrep
  rw [hbody] at hrep
  simp only [Option.some.injEq] at hrep
  subst hrep
  refine ⟨?_, ?_, ?_⟩
  · simp [addHATEOASLinks]
  · rw [addHATEOASLinks_balance]
    exact hneg
  · exact addHATEOASLinks_no_withdraw _ _ (not_lt.mpr hneg.le)

theorem withdraw_overdraft_witness :
    (withdraw sampleAccounts "POST" "acc-a" (some (9 : Rat)) "h").1.status = 200 ∧
    mapLookup (withdraw sampleAccounts "POST" "acc-a" (some (9 : Rat)) "h").2 "acc-a" =
      some { accA with balance := accA.balance - 9 } ∧
    ∀ rep, (withdraw sampleAccounts "POST" "acc-a" (some (9 : Rat)) "h").1.body = some rep →
      rep.balance = accA.balance - 9 ∧
      rep.balance < 0 ∧
      mapLookup rep.links "withdraw" = none :=
  withdraw_overdraft sampleAccounts "acc-a" "h" accA 9 rfl (by decide) (by decide)

/-- The frame a state-changing handler preserves with respect to the store
it started from: same key set, every stored account keeps its id, holder,
currency and stored links, and accounts other than the targeted id are
untouched. -/
def framePreserved (accounts store' : AccountsMap) (accountID : String) : Prop :=
  store'.map Prod.fst = accounts.map Prod.fst ∧
  (∀ id' acc', mapLookup store' id' = some acc' →
     ∃ acc, mapLookup accounts id' = some acc ∧
       acc'.accountID = acc.accountID ∧
       acc'.accountHolder = acc.accountHolder ∧
       acc'.currency = acc.currency ∧
       acc'.links = acc.links) ∧
  (∀ id', id' ≠ accountID → mapLookup store' id' = mapLookup accounts id')

theorem framePreserved_refl (accounts : AccountsMap) (accountID : String) :
    framePreserved accounts accounts accountID :=
  ⟨rfl, fun _ acc' h => ⟨acc', h, rfl, rfl, rfl, rfl⟩, fun _ _ => rfl⟩

theorem framePreserved_mapSet (accounts : AccountsMap) (accountID : String)
    (account updated : Account)
    (hacct : mapLookup accounts accountID = some account)
    (hid : updated.accountID = account.accountID)
    (hholder : updated.accountHolder = account.accountHolder)
    (hcur : updated.currency = account.currency)
    (hlinks : updated.links = account.links) :
    framePreserved accounts (mapSet accounts accountID updated) accountID := by
  refine ⟨mapSet_keys accounts accountID updated, ?_, ?_⟩
  · intro id' acc' h
    by_cases hk : id' = accountID
    · subst hk
      rw [mapLookup_mapSet_eq accounts id' updated account hacct] at h
      simp only [Option.some.injEq] at h
      subst h
      exact ⟨account, hacct, hid, hholder, hcur, hlinks⟩
    · rw [mapLookup_mapSet_ne accounts accountID id' updated hk] at h
      exact ⟨acc', h, rfl, rfl, rfl, rfl⟩
  · intro id' hk
    exact mapLookup_mapSet_ne accounts accountID id' updated hk

/-- Claim C8: no handler adds or removes store entries; only the target's
balance can change; GET leaves the store exactly as it was (links go on a
copy); id, holder, currency (and the stored links) survive every request. -/
theorem handlers_frame (accounts : AccountsMap) (method accountID host : String)
    (body : Option Rat) :
    (getAccount accounts method accountID host).2 = accounts ∧
    framePreserved accounts (deposit accounts method accountID body host).2 accountID ∧
    framePreserved accounts (withdraw accounts method accountID body host).2 accountID := by
  refine ⟨?_, ?_, ?_⟩
  · unfold getAccount
    split
    · rfl
    · split <;> rfl
  · unfold deposit
    split
    · exact framePreserved_refl accounts accountID
    · rename_i hm
      cases hl : mapLookup accounts accountID with
      | none => exact framePreserved_refl accounts accountID
      | some account =>
          simp only []
          cases body with
          | none => exact framePreserved_refl accounts accountID
          | some amount =>
              simp only []
              by_cases ha : amount ≤ 0
              · rw [if_pos ha]
                exact framePreserved_refl accounts accountID
              · rw [if_neg ha]
                exact framePreserved_mapSet accounts accountID account _ hl rfl rfl rfl rfl
  · unfold withdraw
    split
    · exact framePreserved_refl accounts accountID
    · cases hl : mapLookup accounts accountID with
      | none => exact framePreserved_refl accounts accountID
      | some account =>
          simp only []
          by_cases hb : account.balance ≤ 0
          · rw [if_pos hb]
            exact framePreserved_refl accounts accountID
          · rw [if_neg hb]
            cases body with
            | none => exact framePreserved_refl accounts accountID
            | some amount =>
                simp only []
                by_cases ha : amount ≤ 0
                · rw [if_pos ha]
                  exact framePreserved_refl accounts accountID
                · rw [if_neg ha]
                  exact framePreserved_mapSet accounts accountID account _ hl rfl rfl rfl rfl

theorem addHATEOASLinks_names_pos (account : Account) (baseURL : String)
    (h : account.balance > 0) :
    (addHATEOASLinks account baseURL).links.map Prod.fst =
      ["self", "deposit", "withdraw"] := by
  unfold addHATEOASLinks
  simp only [if_pos h]
  simp

/-- Claim C9: in the initial store, acc-123 has balance 1250.75, and the
first GET of it yields a representation whose action-map name set is
exactly self, deposit, withdraw. -/
theorem initial_getAccount_names (host : String) :
    (mapLookup initialAccounts "acc-123" = some acc123 ∧
      acc123.balance = (1250.75 : Rat)) ∧
    ∃ rep, (getAccount initialAccounts "GET" "acc-123" host).1.body = some rep ∧
      rep.balance = (1250.75 : Rat) ∧
      rep.links.map Prod.fst = ["self", "deposit", "withdraw"] := by
  refine ⟨⟨rfl, rfl⟩, addHATEOASLinks acc123 ("http://" ++ host), rfl, ?_, ?_⟩
  · rw [addHATEOASLinks_balance]
    rfl
  · exact addHATEOASLinks_names_pos acc123 _ (by norm_num [acc123])

/-- A capability derived from one action-map entry, as the discovery layer
names it: relation name, target href, HTTP method. -/
structure Capability where
  name : String
  target : String
  method : String
deriving DecidableEq, Repr

/-- Modelled from the spec: the Capability Mapper of the discovery layer
(`mcp-server.py` is not among the given sources) — one capability per
action-map entry, with name = relation key, target = href, and method =
method, defaulting to GET when absent. -/
def mapRepresentation (actionMap : List (String × Link)) : List Capability :=
  actionMap.map (fun p =>
    { name := p.1, target := p.2.href,
      method := if p.2.method = "" then "GET" else p.2.method })

/-- Modelled from the spec: catalog equality — the same set of capability
names each mapping to the same target and method pair; order, version and
timestamp are ignored. -/
def catalogEq (c1 c2 : List Capability) : Bool :=
  c1.all (fun x => decide (x ∈ c2)) && c2.all (fun x => decide (x ∈ c1))

/-- Modelled from the spec: equality of action maps ignoring entry order. -/
def actionMapEq (m1 m2 : List (String × Link)) : Bool :=
  m1.all (fun p => decide (p ∈ m2)) && m2.all (fun p => decide (p ∈ m1))

/-- Modelled from the spec: the Discovery Engine state — the currently
published catalog and its version number. -/
structure EngineState where
  catalog : List Capability
  version : Nat
deriving DecidableEq, Repr

/-- Modelled from the spec: one poll tick of the Discovery Engine's
Diffing step.  The fetched action map is run through the Capability
Mapper; if the candidate catalog equals the published one the tick is a
no-op (Stable), otherwise the version advances, the candidate is
installed, and a notification carrying it is published. -/
def pollStep (st : EngineState) (actionMap : List (String × Link)) :
    EngineState × Option (List Capability) :=
  if catalogEq (mapRepresentation actionMap) st.catalog then (st, none)
  else ({ catalog := mapRepresentation actionMap, version := st.version + 1 },
        some (mapRepresentation actionMap))

theorem catalogEq_iff (c1 c2 : List Capability) :
    catalogEq c1 c2 = true ↔ ∀ x, x ∈ c1 ↔ x ∈ c2 := by
  simp only [catalogEq, Bool.and_eq_true, List.all_eq_true, decide_eq_true_eq]
  constructor
  · rintro ⟨h1, h2⟩ x
    exact ⟨fun hx => h1 x hx, fun hx => h2 x hx⟩
  · intro h
    exact ⟨fun x hx => (h x).1 hx, fun x hx => (h x).2 hx⟩

theorem actionMapEq_iff (m1 m2 : List (String × Link)) :
    actionMapEq m1 m2 = true ↔ ∀ p, p ∈ m1 ↔ p ∈ m2 := by
  simp only [actionMapEq, Bool.and_eq_true, List.all_eq_true, decide_eq_true_eq]
  constructor
  · rintro ⟨h1, h2⟩ p
    exact ⟨fun hp => h1 p hp, fun hp => h2 p hp⟩
  · intro h
    exact ⟨fun p hp => (h p).1 hp, fun p hp => (h p).2 hp⟩

theorem mapRepresentation_mem_iff (m1 m2 : List (String × Link))
    (h : ∀ p, p ∈ m1 ↔ p ∈ m2) (c : Capability) :
    c ∈ mapRepresentation m1 ↔ c ∈ mapRepresentation m2 := by
  simp only [mapRepresentation, List.mem_map]
  constructor
  · rintro ⟨p, hp, rfl⟩
    exact ⟨p, (h p).1 hp, rfl⟩
  · rintro ⟨p, hp, rfl⟩
    exact ⟨p, (h p).2 hp, rfl⟩

theorem pollStep_of_catalogEq (st : EngineState) (m : List (String × Link))
    (h : catalogEq (mapRepresentation m) st.catalog = true) :
    pollStep st m = (st, none) := by
  unfold pollStep
  rw [if_pos h]

/-- Claim C10: when two consecutive polls fetch representations with
identical action maps (ignoring order), the second tick publishes no
notification and leaves the published catalog and version unchanged. -/
theorem pollStep_stable (st : EngineState) (m1 m2 : List (String × Link))
    (h : actionMapEq m1 m2 = true) :
    pollStep (pollStep st m1).1 m2 = ((pollStep st m1).1, none) := by
  have hmem := mapRepresentation_mem_iff m1 m2 ((actionMapEq_iff m1 m2).1 h)
  refine pollStep_of_catalogEq _ m2 ?_
  unfold pollStep
  by_cases h1 : catalogEq (mapRepresentation m1) st.catalog = true
  · rw [if_pos h1]
    rw [catalogEq_iff] at h1 ⊢
    intro x
    exact (hmem x).symm.trans (h1 x)
  · rw [if_neg h1]
    rw [catalogEq_iff]
    intro x
    exact (hmem x).symm

/-- A sample action map as the bank API serves it. -/
def sampleMap1 : List (String × Link) :=
  [ ("self", { href := "/accounts/acc-a", method := "GET", rel := "self" }),
    ("deposit", { href := "/accounts/acc-a/deposit", method := "POST", rel := "deposit" }) ]

/-- The same action map with its entries reordered. -/
def sampleMap2 : List (String × Link) :=
  [ ("deposit", { href := "/accounts/acc-a/deposit", method := "POST", rel := "deposit" }),
    ("self", { href := "/accounts/acc-a", method := "GET", rel := "self" }) ]

theorem pollStep_stable_witness :
    pollStep (pollStep ⟨[], 0⟩ sampleMap1).1 sampleMap2 =
      ((pollStep ⟨[], 0⟩ sampleMap1).1, none) :=
  pollStep_stable ⟨[], 0⟩ sampleMap1 sampleMap2 (by decide)
